import Mathlib

/-!
Shallow embedding of the prompt-caching request builder
(`src/api/providers/anthropic.ts` and the provider factory) together with
proofs of the specified properties.

Messages, content blocks and the handler cached-message state are embedded
as plain inductive data; the stateful methods of `AnthropicHandler` become
functions that take the `cachedMessages` field explicitly and return the new
state.  The transport collaborator and the confirmation dialog are modelled
by an oracle (`Turn`) supplying their outcomes for one call.
-/

namespace ClaudeDev

/-- A content block of a message: `{ type, text?, cache_control? }`.
`cache_control = some "ephemeral"` models `cache_control: { type: "ephemeral" }`. -/
structure ContentBlock where
  type : String
  text : String
  cache_control : Option String
deriving DecidableEq, Repr

/-- Message content is either a bare string or an array of content blocks. -/
inductive MessageContent where
  | str (s : String)
  | blocks (bs : List ContentBlock)
deriving DecidableEq, Repr

/-- Embeds `Anthropic.Messages.MessageParam`: a role (`"user"` / `"assistant"`) and content. -/
structure MessageParam where
  role : String
  content : MessageContent
deriving DecidableEq, Repr

/-- Default element used with `List.getD` when indexing (indices are always in
bounds where this appears, mirroring the source direct array accesses). -/
def mpDefault : MessageParam := ⟨"user", MessageContent.str ""⟩

/-- Model capability record.  `maxTokens` and the two caching fields follow the
spec ModelDescriptor. -/
structure ModelInfo where
  maxTokens : Nat
  supportsCaching : Bool
  requiredBetaHeader : Option String
deriving DecidableEq, Repr

/-- Modelled from the spec: the static model catalog `anthropicModels` lives in
`src/shared/api`, which is not part of the available sources; the spec describes
it as a static mapping from model identifier to capability metadata, with
`claude-3-opus-20240229` caching-capable.  The caching-capable identifiers and
their beta headers are pinned by the dispatch switch and
`getPromptCachingHeaders` in `src/api/providers/anthropic.ts`. -/
def anthropicModels : List (String × ModelInfo) :=
  [ ("claude-3-5-sonnet-20240620", ⟨8192, true, some "prompt-caching-2024-07-31"⟩),
    ("claude-3-opus-20240229", ⟨4096, true, none⟩),
    ("claude-3-haiku-20240307", ⟨4096, true, some "prompt-caching-2024-07-31"⟩),
    ("claude-3-sonnet-20240229", ⟨4096, false, none⟩) ]

/-- Modelled from the spec: the designated default model identifier from
`src/shared/api` (the spec requires a fixed default descriptor). -/
def anthropicDefaultModelId : String := "claude-3-5-sonnet-20240620"

/-- The default descriptor `anthropicModels[anthropicDefaultModelId]`. -/
def anthropicDefaultModelInfo : ModelInfo := ⟨8192, true, some "prompt-caching-2024-07-31"⟩

/-- Embeds `getModel()`: resolve `options.apiModelId` against the catalog, falling back
to the default model when the id is absent or unknown. -/
def getModel (apiModelId : Option String) : String × ModelInfo :=
  match apiModelId with
  | some modelId =>
    match anthropicModels.find? (fun p => p.1 == modelId) with
    | some p => p
    | none => (anthropicDefaultModelId, anthropicDefaultModelInfo)
  | none => (anthropicDefaultModelId, anthropicDefaultModelInfo)

/-- Embeds `getNewMessages(messages)`: `lastCachedIndex = cachedMessages.length - 1`,
then `messages.slice(lastCachedIndex + 1)` (JS arithmetic, hence the `Int`). -/
def getNewMessages (cachedMessages messages : List MessageParam) : List MessageParam :=
  let lastCachedIndex : Int := (cachedMessages.length : Int) - 1
  messages.drop (lastCachedIndex + 1).toNat

/-- Embeds `array.map(m => m.role).lastIndexOf("user")`: index of the last user-role
message, `-1` when there is none. -/
def lastIndexOfUser : List MessageParam → Int
  | [] => -1
  | m :: rest =>
    let r := lastIndexOfUser rest
    if r = -1 then (if m.role = "user" then 0 else -1) else r + 1

/-- Embeds `makeMessageEphemeral(message)`: mark every content block with
`cache_control: ephemeral`, normalising bare-string content into a single
text block first. -/
def makeMessageEphemeral (message : MessageParam) : MessageParam :=
  { message with
    content :=
      match message.content with
      | MessageContent.blocks bs =>
        MessageContent.blocks (bs.map fun c => { c with cache_control := some "ephemeral" })
      | MessageContent.str s =>
        MessageContent.blocks [⟨"text", s, some "ephemeral"⟩] }

/-- Embeds `prepareCachedMessages(newMessages)`: concatenate the cached messages with
the new ones and replace the last user-role message by its ephemeral copy. -/
def prepareCachedMessages (cachedMessages newMessages : List MessageParam) :
    List MessageParam :=
  let preparedMessages := cachedMessages ++ newMessages
  if 0 < preparedMessages.length then
    let lastUserMsgIndex := lastIndexOfUser preparedMessages
    if lastUserMsgIndex = -1 then
      preparedMessages
    else
      preparedMessages.set lastUserMsgIndex.toNat
        (makeMessageEphemeral (preparedMessages.getD lastUserMsgIndex.toNat mpDefault))
  else
    preparedMessages

/-- Embeds `updateCachedMessages(newMessages)`: append the (unmarked) new messages to
the handler state. -/
def updateCachedMessages (cachedMessages newMessages : List MessageParam) :
    List MessageParam :=
  cachedMessages ++ newMessages

/-- Embeds `getPromptCachingHeaders(modelId)`: the `anthropic-beta` header value, when
the model requires one. -/
def getPromptCachingHeaders (modelId : String) : Option String :=
  if modelId = "claude-3-5-sonnet-20240620" ∨ modelId = "claude-3-haiku-20240307" then
    some "prompt-caching-2024-07-31"
  else
    none

/-- The `switch (modelId)` in `createMessage` that selects the
`beta.promptCaching` call path. -/
def usesPromptCachingPath (modelId : String) : Bool :=
  modelId = "claude-3-5-sonnet-20240620" ∨ modelId = "claude-3-opus-20240229" ∨
    modelId = "claude-3-haiku-20240307"

/-- A system-prompt block as sent on the wire. -/
structure SystemBlock where
  text : String
  type : String
  cache_control : Option String
deriving DecidableEq, Repr

/-- The assembled request body (`requestData` with the per-branch `system`
override applied). -/
structure RequestPayload where
  model : String
  max_tokens : Nat
  temperature : Rat
  system : List SystemBlock
  messages : List MessageParam
  tools : List String
  tool_choice : String
deriving DecidableEq, Repr

/-- A request together with its routing: which call path it goes through and
which beta header (if any) is attached. -/
structure AssembledRequest where
  payload : RequestPayload
  cachingPath : Bool
  betaHeader : Option String
deriving DecidableEq, Repr

/-- The pure request-construction part of `createMessage`: build `requestData`
from the handler state and inputs, then apply the branch of the model switch. -/
def buildRequest (cachedMessages : List MessageParam) (systemPrompt : String)
    (messages : List MessageParam) (tools : List String)
    (apiModelId : Option String) : AssembledRequest :=
  let model := getModel apiModelId
  let modelId := model.1
  let newMessages := getNewMessages cachedMessages messages
  let base : RequestPayload :=
    { model := modelId
      max_tokens := model.2.maxTokens
      temperature := (2 : Rat) / 10
      system := []
      messages := prepareCachedMessages cachedMessages newMessages
      tools := tools
      tool_choice := "auto" }
  if usesPromptCachingPath modelId then
    { payload := { base with system := [⟨systemPrompt, "text", some "ephemeral"⟩] }
      cachingPath := true
      betaHeader := getPromptCachingHeaders modelId }
  else
    { payload := { base with system := [⟨systemPrompt, "text", none⟩] }
      cachingPath := false
      betaHeader := none }

/-- Errors `createMessage` can surface: the user cancelling the confirmation
dialog, or a failure from the transport collaborator. -/
inductive CreateError where
  | cancelled
  | apiError (e : String)
deriving DecidableEq, Repr

/-- Oracle for one call: the confirmation dialog answer (consulted only when
`showConfirmationDialog` is set) and the provider call outcome. -/
structure Turn where
  confirmed : Bool
  apiResult : Except String String
deriving Repr

/-- Embeds `createMessage(systemPrompt, messages, tools)`: compute the new messages,
run the (optional) confirmation, issue the provider call, and on success commit
the new messages to the handler state.  Returns the outcome together with the
handler `cachedMessages` after the call. -/
def createMessage (showConfirmationDialog : Bool) (apiModelId : Option String)
    (cachedMessages : List MessageParam) (systemPrompt : String)
    (messages : List MessageParam) (tools : List String) (env : Turn) :
    Except CreateError String × List MessageParam :=
  let newMessages := getNewMessages cachedMessages messages
  if showConfirmationDialog ∧ env.confirmed = false then
    (Except.error CreateError.cancelled, cachedMessages)
  else
    match env.apiResult with
    | Except.error e => (Except.error (CreateError.apiError e), cachedMessages)
    | Except.ok msg => (Except.ok msg, updateCachedMessages cachedMessages newMessages)

/-- Inputs and oracle for one turn, used to iterate `createMessage`. -/
structure TurnInput where
  sc : Bool
  mid : Option String
  sys : String
  msgs : List MessageParam
  tools : List String
  env : Turn

/-- Run a sequence of turns, threading the handler cached-message state. -/
def runTurns (cachedMessages : List MessageParam) : List TurnInput → List MessageParam
  | [] => cachedMessages
  | t :: ts =>
    runTurns (createMessage t.sc t.mid cachedMessages t.sys t.msgs t.tools t.env).2 ts

/-- A message carries a cache marker iff some content block has `cache_control`. -/
def msgHasMarker (m : MessageParam) : Bool :=
  match m.content with
  | MessageContent.str _ => false
  | MessageContent.blocks bs => bs.any fun b => b.cache_control.isSome

/-- Every content block of the message carries `cache_control`. -/
def msgAllMarked (m : MessageParam) : Bool :=
  match m.content with
  | MessageContent.str _ => false
  | MessageContent.blocks bs => bs.all fun b => b.cache_control.isSome

/-- The message content is in block-sequence form. -/
def isBlockForm (m : MessageParam) : Bool :=
  match m.content with
  | MessageContent.str _ => false
  | MessageContent.blocks _ => true

/-- Well-formed message content: a bare string, or a nonempty block list. -/
def wellFormedMsg (m : MessageParam) : Bool :=
  match m.content with
  | MessageContent.str _ => true
  | MessageContent.blocks bs => 0 < bs.length

/-- Sample messages for concrete witnesses and counterexamples. -/
def uHi : MessageParam := ⟨"user", MessageContent.str "hi"⟩

def aHello : MessageParam := ⟨"assistant", MessageContent.str "hello"⟩

def uA : MessageParam := ⟨"user", MessageContent.str "A"⟩

def aB : MessageParam := ⟨"assistant", MessageContent.str "B"⟩

def uNext : MessageParam := ⟨"user", MessageContent.str "next"⟩

/-- The concrete handler classes the factory can construct. -/
inductive HandlerVariant where
  | anthropicHandler
  | openAiHandler
deriving DecidableEq, Repr

/-- Embeds `buildApiHandler(configuration)`: the provider switch from
`src/api/index.ts`; the `"ollama"` case and the default case both construct an
`AnthropicHandler`. -/
def buildApiHandler (apiProvider : Option String) : HandlerVariant :=
  if apiProvider == some "anthropic" then HandlerVariant.anthropicHandler
  else if apiProvider == some "openai" then HandlerVariant.openAiHandler
  else HandlerVariant.anthropicHandler

/-! ### Helper lemmas -/

/-- The JS index arithmetic in `getNewMessages` amounts to dropping the cached
message count. -/
lemma getNewMessages_eq_drop (cachedMessages messages : List MessageParam) :
    getNewMessages cachedMessages messages = messages.drop cachedMessages.length := by
  have h : ((cachedMessages.length : Int) - 1 + 1).toNat = cachedMessages.length := by omega
  show messages.drop (((cachedMessages.length : Int) - 1) + 1).toNat =
    messages.drop cachedMessages.length
  rw [h]

lemma getD_of_lt (l : List MessageParam) (j : Nat) (h : j < l.length) :
    l.getD j mpDefault = l[j] := by
  simp [List.getD_eq_getElem?_getD, List.getElem?_eq_getElem h]

lemma getD_mem_of_lt (l : List MessageParam) (j : Nat) (h : j < l.length) :
    l.getD j mpDefault ∈ l := by
  rw [getD_of_lt l j h]
  exact List.getElem_mem h

/-- The handler state after `createMessage`: unchanged on failure, advanced by
the new messages on success. -/
lemma createMessage_snd (sc : Bool) (mid : Option String) (st : List MessageParam)
    (sys : String) (msgs : List MessageParam) (tools : List String) (env : Turn) :
    (createMessage sc mid st sys msgs tools env).2 =
      if (createMessage sc mid st sys msgs tools env).1.isOk then
        updateCachedMessages st (getNewMessages st msgs)
      else st := by
  unfold createMessage
  split
  · rfl
  · cases env.apiResult <;> rfl

end ClaudeDev

namespace ClaudeDev

/-! ### Claim theorems -/

/-- C1: for every conversation `C` and cached-message state `P` with `P` a
prefix of `C` (that is, `C = P ++ S`), `getNewMessages` returns exactly the
suffix of `C` starting at index `P.length`. -/
theorem getNewMessages_returns_suffix (P S C : List MessageParam) (h : C = P ++ S) :
    getNewMessages P C = S := by
  subst h
  rw [getNewMessages_eq_drop]
  exact List.drop_left P S

theorem getNewMessages_returns_suffix_witness :
    [uHi, aHello] = [uHi] ++ [aHello] ∧
      getNewMessages [uHi] [uHi, aHello] = [aHello] :=
  ⟨rfl, getNewMessages_returns_suffix [uHi] [aHello] [uHi, aHello] rfl⟩

/-- C3 counterexample: with `cachedMessages = [A, B]` and the shorter
conversation `[A]`, `createMessage` does not raise any error — the provider
call goes through and returns `ok`.  No precondition violation is surfaced. -/
theorem shorter_conversation_no_error :
    (createMessage false none [uA, aB] "s" [uA] [] ⟨true, Except.ok "resp"⟩).1 =
      Except.ok "resp" := rfl

/-- C3 (amended): when the conversation is shorter than the recorded cached
message state, no error is raised: `getNewMessages` returns the empty list and
the cache state is left unchanged by the call. -/
theorem shorter_conversation_silently_empty (st msgs : List MessageParam)
    (h : msgs.length < st.length) (sc : Bool) (mid : Option String) (sys : String)
    (tools : List String) (env : Turn) :
    getNewMessages st msgs = [] ∧ (createMessage sc mid st sys msgs tools env).2 = st := by
  have h1 : getNewMessages st msgs = [] := by
    rw [getNewMessages_eq_drop]
    exact List.drop_eq_nil_of_le (le_of_lt h)
  refine ⟨h1, ?_⟩
  rw [createMessage_snd]
  split
  · rw [h1]
    simp [updateCachedMessages]
  · rfl

theorem shorter_conversation_silently_empty_witness :
    getNewMessages [uA, aB] [uA] = [] ∧
      (createMessage false none [uA, aB] "s" [uA] [] ⟨true, Except.ok "resp"⟩).2 =
        [uA, aB] :=
  shorter_conversation_silently_empty [uA, aB] [uA] (by decide) false none "s" []
    ⟨true, Except.ok "resp"⟩

/-- C7: the factory always returns a handler — `"anthropic"` and `"openai"`
yield their variants, and any other or absent identifier yields the default
`AnthropicHandler` variant rather than an error. -/
theorem buildApiHandler_default_fallback (p : Option String) :
    buildApiHandler (some "anthropic") = HandlerVariant.anthropicHandler ∧
    buildApiHandler (some "openai") = HandlerVariant.openAiHandler ∧
    buildApiHandler none = HandlerVariant.anthropicHandler ∧
    (p ≠ some "anthropic" → p ≠ some "openai" →
      buildApiHandler p = HandlerVariant.anthropicHandler) := by
  refine ⟨rfl, rfl, rfl, fun h1 h2 => ?_⟩
  unfold buildApiHandler
  rw [if_neg, if_neg]
  · simp [h2]
  · simp [h1]

theorem buildApiHandler_default_fallback_witness :
    buildApiHandler (some "unrecognized") = HandlerVariant.anthropicHandler :=
  (buildApiHandler_default_fallback (some "unrecognized")).2.2.2 (by decide) (by decide)

end ClaudeDev

namespace ClaudeDev

/-- Resolution always returns an entry of the catalog. -/
lemma getModel_mem (mid : Option String) : getModel mid ∈ anthropicModels := by
  unfold getModel
  cases mid with
  | none => decide
  | some id =>
    rcases hf : anthropicModels.find? (fun p => p.1 == id) with _ | p
    · simp only [hf]
      decide
    · simp only [hf]
      exact List.mem_of_find?_eq_some hf

/-- On every resolvable model, the `createMessage` dispatch switch agrees with
the descriptor `supportsCaching` flag, and `getPromptCachingHeaders` agrees
with the descriptor `requiredBetaHeader`. -/
lemma getModel_caching_agrees (mid : Option String) :
    (getModel mid).2.supportsCaching = usesPromptCachingPath (getModel mid).1 ∧
    getPromptCachingHeaders (getModel mid).1 = (getModel mid).2.requiredBetaHeader := by
  have h := getModel_mem mid
  revert h
  generalize getModel mid = g
  intro h
  fin_cases h <;> decide

/-- C8: model resolution never fails — a known id resolves to its catalog
descriptor, an unknown or absent id resolves to the fixed default descriptor,
and `"claude-3-opus-20240229"` resolves to a caching-capable descriptor. -/
theorem getModel_resolution (mid : Option String) :
    (∀ id info, mid = some id → (id, info) ∈ anthropicModels → getModel mid = (id, info)) ∧
    (∀ id, mid = some id → (∀ q ∈ anthropicModels, q.1 ≠ id) →
      getModel mid = (anthropicDefaultModelId, anthropicDefaultModelInfo)) ∧
    (mid = none → getModel mid = (anthropicDefaultModelId, anthropicDefaultModelInfo)) ∧
    (getModel (some "claude-3-opus-20240229")).2.supportsCaching = true := by
  refine ⟨?_, ?_, ?_, by decide⟩
  · intro id info hmid hmem
    subst hmid
    simp only [anthropicModels, List.mem_cons, List.mem_singleton, Prod.mk.injEq,
      List.not_mem_nil, or_false] at hmem
    rcases hmem with ⟨h1, h2⟩ | ⟨h1, h2⟩ | ⟨h1, h2⟩ | ⟨h1, h2⟩ <;>
      subst h1 <;> subst h2 <;> decide
  · intro id hmid hq
    subst hmid
    have hf : anthropicModels.find? (fun p => p.1 == id) = none := by
      rw [List.find?_eq_none]
      intro x hx
      simpa using hq x hx
    simp [getModel, hf]
  · intro hmid
    subst hmid
    rfl

theorem getModel_resolution_witness :
    getModel (some "claude-3-opus-20240229") =
      ("claude-3-opus-20240229", ⟨4096, true, none⟩) :=
  (getModel_resolution (some "claude-3-opus-20240229")).1
    "claude-3-opus-20240229" ⟨4096, true, none⟩ rfl (by decide)

/-- C6: for every caching-capable model, the request uses the cached shape —
the system prompt is a single text block with a cache marker, the messages are
the output of `prepareCachedMessages`, the call is routed through the
prompt-caching path, and the beta header matches the descriptor required
header. -/
theorem cached_shape_dispatch (st : List MessageParam) (sys : String)
    (msgs : List MessageParam) (tools : List String) (mid : Option String)
    (h : (getModel mid).2.supportsCaching = true) :
    (buildRequest st sys msgs tools mid).cachingPath = true ∧
    (buildRequest st sys msgs tools mid).payload.system = [⟨sys, "text", some "ephemeral"⟩] ∧
    (buildRequest st sys msgs tools mid).payload.messages =
      prepareCachedMessages st (getNewMessages st msgs) ∧
    (buildRequest st sys msgs tools mid).betaHeader =
      (getModel mid).2.requiredBetaHeader ∧
    (buildRequest st sys msgs tools mid).payload.model = (getModel mid).1 ∧
    (buildRequest st sys msgs tools mid).payload.max_tokens =
      (getModel mid).2.maxTokens := by
  have hc := getModel_caching_agrees mid
  have hp : usesPromptCachingPath (getModel mid).1 = true := by rw [← hc.1]; exact h
  unfold buildRequest
  simp [hp, hc.2]

theorem cached_shape_dispatch_witness :
    (buildRequest [uHi] "sys" [uHi, aHello] [] (some "claude-3-opus-20240229")).cachingPath =
        true ∧
      (buildRequest [uHi] "sys" [uHi, aHello] [] (some "claude-3-opus-20240229")).payload.system =
        [⟨"sys", "text", some "ephemeral"⟩] ∧
      (buildRequest [uHi] "sys" [uHi, aHello] [] (some "claude-3-opus-20240229")).payload.messages =
        prepareCachedMessages [uHi] (getNewMessages [uHi] [uHi, aHello]) ∧
      (buildRequest [uHi] "sys" [uHi, aHello] [] (some "claude-3-opus-20240229")).betaHeader =
        (getModel (some "claude-3-opus-20240229")).2.requiredBetaHeader ∧
      (buildRequest [uHi] "sys" [uHi, aHello] [] (some "claude-3-opus-20240229")).payload.model =
        (getModel (some "claude-3-opus-20240229")).1 ∧
      (buildRequest [uHi] "sys" [uHi, aHello] []
          (some "claude-3-opus-20240229")).payload.max_tokens =
        (getModel (some "claude-3-opus-20240229")).2.maxTokens :=
  cached_shape_dispatch [uHi] "sys" [uHi, aHello] [] (some "claude-3-opus-20240229") (by decide)

/-- C2 counterexample: for the non-caching model `claude-3-sonnet-20240229`,
the plain-shape request `messages` field is NOT just the new messages of the
turn — it also resends the previously cached message (and carries the cache
marker). -/
theorem plain_shape_resends_counterexample :
    (buildRequest [uHi] "sys" [uHi, uNext] [] (some "claude-3-sonnet-20240229")).payload.messages ≠
      getNewMessages [uHi] [uHi, uNext] := by decide

/-- C2 (amended): for every model whose descriptor has
`supportsCaching = false`, the plain shape is used (unmarked system block, no
beta header, non-caching call path), but its `messages` field is the full
`prepareCachedMessages` output — previously cached messages ARE resent, exactly
as in the cached shape. -/
theorem plain_shape_messages (st : List MessageParam) (sys : String)
    (msgs : List MessageParam) (tools : List String) (mid : Option String)
    (h : (getModel mid).2.supportsCaching = false) :
    (buildRequest st sys msgs tools mid).cachingPath = false ∧
    (buildRequest st sys msgs tools mid).payload.system = [⟨sys, "text", none⟩] ∧
    (buildRequest st sys msgs tools mid).payload.messages =
      prepareCachedMessages st (getNewMessages st msgs) ∧
    (buildRequest st sys msgs tools mid).betaHeader = none := by
  have hc := getModel_caching_agrees mid
  have hp : usesPromptCachingPath (getModel mid).1 = false := by rw [← hc.1]; exact h
  unfold buildRequest
  simp [hp]

lemma makeMessageEphemeral_role (m : MessageParam) :
    (makeMessageEphemeral m).role = m.role := rfl

lemma makeMessageEphemeral_blockForm (m : MessageParam) :
    isBlockForm (makeMessageEphemeral m) = true := by
  cases m with
  | mk role content => cases content <;> rfl

lemma makeMessageEphemeral_allMarked (m : MessageParam) :
    msgAllMarked (makeMessageEphemeral m) = true := by
  cases m with
  | mk role content =>
    cases content with
    | str s => rfl
    | blocks bs =>
      simp only [makeMessageEphemeral, msgAllMarked, List.all_eq_true, List.mem_map]
      rintro x ⟨a, _, rfl⟩
      rfl

lemma makeMessageEphemeral_hasMarker (m : MessageParam) (h : wellFormedMsg m = true) :
    msgHasMarker (makeMessageEphemeral m) = true := by
  cases m with
  | mk role content =>
    cases content with
    | str s => rfl
    | blocks bs =>
      simp only [wellFormedMsg, decide_eq_true_eq] at h
      obtain ⟨b, hb⟩ := List.exists_mem_of_length_pos h
      simp only [makeMessageEphemeral, msgHasMarker, List.any_eq_true, List.mem_map]
      exact ⟨_, ⟨b, hb, rfl⟩, rfl⟩

/-- The index `lastIndexOfUser` is `-1` exactly when the list has no user-role message,
and otherwise is the index of the last user-role message. -/
lemma lastIndexOfUser_spec (l : List MessageParam) :
    (lastIndexOfUser l = -1 ∧ ∀ m ∈ l, m.role ≠ "user") ∨
    (∃ i : Nat, lastIndexOfUser l = (i : Int) ∧ i < l.length ∧
      (l.getD i mpDefault).role = "user" ∧
      ∀ j : Nat, i < j → j < l.length → (l.getD j mpDefault).role ≠ "user") := by
  induction l with
  | nil =>
    left
    exact ⟨rfl, by simp⟩
  | cons m rest ih =>
    rcases ih with ⟨hr, hnone⟩ | ⟨i, hr, hlen, hrole, hafter⟩
    · by_cases hm : m.role = "user"
      · right
        refine ⟨0, ?_, by simp, by simpa using hm, ?_⟩
        · show (if lastIndexOfUser rest = -1 then (if m.role = "user" then 0 else -1)
            else lastIndexOfUser rest + 1) = (0 : Int)
          rw [if_pos hr, if_pos hm]
        · intro j hj hjlen
          cases j with
          | zero => omega
          | succ k =>
            have hk : k < rest.length := by
              simp only [List.length_cons] at hjlen
              omega
            have := hnone (rest.getD k mpDefault) (getD_mem_of_lt rest k hk)
            simpa [List.getD_cons_succ] using this
      · left
        refine ⟨?_, ?_⟩
        · show (if lastIndexOfUser rest = -1 then (if m.role = "user" then 0 else -1)
            else lastIndexOfUser rest + 1) = (-1 : Int)
          rw [if_pos hr, if_neg hm]
        · intro x hx
          rcases List.mem_cons.mp hx with h | h
          · rw [h]; exact hm
          · exact hnone x h
    · right
      have hne : lastIndexOfUser rest ≠ -1 := by rw [hr]; omega
      refine ⟨i + 1, ?_, ?_, ?_, ?_⟩
      · show (if lastIndexOfUser rest = -1 then (if m.role = "user" then 0 else -1)
          else lastIndexOfUser rest + 1) = ((i + 1 : Nat) : Int)
        rw [if_neg hne, hr]
        omega
      · simp only [List.length_cons]
        omega
      · simpa [List.getD_cons_succ] using hrole
      · intro j hj hjlen
        cases j with
        | zero => omega
        | succ k =>
          have hk1 : i < k := by omega
          have hk2 : k < rest.length := by
            simp only [List.length_cons] at hjlen
            omega
          simpa [List.getD_cons_succ] using hafter k hk1 hk2

lemma prepareCachedMessages_of_no_user (priorCached newMessages : List MessageParam)
    (h : lastIndexOfUser (priorCached ++ newMessages) = -1) :
    prepareCachedMessages priorCached newMessages = priorCached ++ newMessages := by
  show (if 0 < (priorCached ++ newMessages).length then
      (if lastIndexOfUser (priorCached ++ newMessages) = -1 then priorCached ++ newMessages
        else (priorCached ++ newMessages).set
          (lastIndexOfUser (priorCached ++ newMessages)).toNat
          (makeMessageEphemeral ((priorCached ++ newMessages).getD
            (lastIndexOfUser (priorCached ++ newMessages)).toNat mpDefault)))
    else priorCached ++ newMessages) = priorCached ++ newMessages
  rw [h]
  simp

lemma prepareCachedMessages_of_idx (priorCached newMessages : List MessageParam) (i : Nat)
    (h : lastIndexOfUser (priorCached ++ newMessages) = (i : Int)) :
    prepareCachedMessages priorCached newMessages =
      (priorCached ++ newMessages).set i
        (makeMessageEphemeral ((priorCached ++ newMessages).getD i mpDefault)) := by
  have hne : lastIndexOfUser (priorCached ++ newMessages) ≠ -1 := by rw [h]; omega
  have h0 : 0 < (priorCached ++ newMessages).length := by
    rcases hl : priorCached ++ newMessages with _ | ⟨a, rest⟩
    · rw [hl] at hne
      exact absurd rfl hne
    · simp
  show (if 0 < (priorCached ++ newMessages).length then
      (if lastIndexOfUser (priorCached ++ newMessages) = -1 then priorCached ++ newMessages
        else (priorCached ++ newMessages).set
          (lastIndexOfUser (priorCached ++ newMessages)).toNat
          (makeMessageEphemeral ((priorCached ++ newMessages).getD
            (lastIndexOfUser (priorCached ++ newMessages)).toNat mpDefault)))
    else priorCached ++ newMessages) =
    (priorCached ++ newMessages).set i
      (makeMessageEphemeral ((priorCached ++ newMessages).getD i mpDefault))
  rw [if_pos h0, h, if_neg (by omega : ¬((i : Nat) : Int) = -1), Int.toNat_natCast]

lemma getD_set_of_lt (l : List MessageParam) (i j : Nat) (a : MessageParam)
    (hj : j < l.length) :
    (l.set i a).getD j mpDefault = if i = j then a else l.getD j mpDefault := by
  have hj2 : j < (l.set i a).length := by simpa using hj
  rw [getD_of_lt _ j hj2, List.getElem_set hj2, getD_of_lt l j hj]

/-- C4: `prepareCachedMessages` returns the concatenation of the prior cached
messages and the new messages with exactly one cache-marker group, placed on
all content blocks of the last user-role message of the combined sequence
(which is normalised to block form); with no user-role message, no marker is
placed.  Hypotheses: the inputs carry no markers of their own and are
well-formed (no empty block lists). -/
theorem prepareCachedMessages_marker_placement (priorCached newMessages : List MessageParam)
    (hclean : ∀ m ∈ priorCached ++ newMessages, msgHasMarker m = false)
    (hwf : ∀ m ∈ priorCached ++ newMessages, wellFormedMsg m = true) :
    ((∀ m ∈ priorCached ++ newMessages, m.role ≠ "user") →
      prepareCachedMessages priorCached newMessages = priorCached ++ newMessages ∧
      ∀ m ∈ prepareCachedMessages priorCached newMessages, msgHasMarker m = false) ∧
    ((∃ m ∈ priorCached ++ newMessages, m.role = "user") →
      ∃ i : Nat, lastIndexOfUser (priorCached ++ newMessages) = (i : Int)) ∧
    (∀ i : Nat, lastIndexOfUser (priorCached ++ newMessages) = (i : Int) →
      ((priorCached ++ newMessages).getD i mpDefault).role = "user" ∧
      (∀ j : Nat, i < j → j < (priorCached ++ newMessages).length →
        ((priorCached ++ newMessages).getD j mpDefault).role ≠ "user") ∧
      prepareCachedMessages priorCached newMessages =
        (priorCached ++ newMessages).set i
          (makeMessageEphemeral ((priorCached ++ newMessages).getD i mpDefault)) ∧
      isBlockForm ((prepareCachedMessages priorCached newMessages).getD i mpDefault) = true ∧
      msgAllMarked ((prepareCachedMessages priorCached newMessages).getD i mpDefault) = true ∧
      (∀ j : Nat, j < (priorCached ++ newMessages).length →
        (msgHasMarker ((prepareCachedMessages priorCached newMessages).getD j mpDefault) = true ↔
          j = i))) := by
  refine ⟨?_, ?_, ?_⟩
  · intro hno
    have hneg : lastIndexOfUser (priorCached ++ newMessages) = -1 := by
      rcases lastIndexOfUser_spec (priorCached ++ newMessages) with ⟨h1, _⟩ |
        ⟨i, _, hlen, hrole, _⟩
      · exact h1
      · exact absurd hrole (hno _ (getD_mem_of_lt _ i hlen))
    have hp := prepareCachedMessages_of_no_user _ _ hneg
    refine ⟨hp, ?_⟩
    rw [hp]
    exact hclean
  · rintro ⟨m, hm, hrole⟩
    rcases lastIndexOfUser_spec (priorCached ++ newMessages) with ⟨_, hnone⟩ | ⟨i, hi, _⟩
    · exact absurd hrole (hnone m hm)
    · exact ⟨i, hi⟩
  · intro i hi
    rcases lastIndexOfUser_spec (priorCached ++ newMessages) with ⟨h1, _⟩ |
      ⟨i1, hi1, hlen, hrole, hafter⟩
    · rw [hi] at h1
      exfalso
      omega
    · have hii : i1 = i := by
        rw [hi] at hi1
        omega
      subst hii
      have hset := prepareCachedMessages_of_idx _ _ i1 hi
      have hgetD_i : (prepareCachedMessages priorCached newMessages).getD i1 mpDefault =
          makeMessageEphemeral ((priorCached ++ newMessages).getD i1 mpDefault) := by
        rw [hset, getD_set_of_lt _ i1 i1 _ hlen, if_pos rfl]
      refine ⟨hrole, hafter, hset, ?_, ?_, ?_⟩
      · rw [hgetD_i]
        exact makeMessageEphemeral_blockForm _
      · rw [hgetD_i]
        exact makeMessageEphemeral_allMarked _
      · intro j hj
        by_cases hij : j = i1
        · subst hij
          rw [hgetD_i]
          exact iff_of_true
            (makeMessageEphemeral_hasMarker _ (hwf _ (getD_mem_of_lt _ j hlen))) rfl
        · have hj_eq : (prepareCachedMessages priorCached newMessages).getD j mpDefault =
              (priorCached ++ newMessages).getD j mpDefault := by
            rw [hset, getD_set_of_lt _ i1 j _ hj, if_neg (fun hh => hij hh.symm)]
          rw [hj_eq]
          exact iff_of_false
            (by rw [hclean _ (getD_mem_of_lt _ j hj)]; exact Bool.false_ne_true) hij

theorem prepareCachedMessages_marker_placement_witness :
    prepareCachedMessages [] [uHi] =
        ([] ++ [uHi]).set 0 (makeMessageEphemeral (([] ++ [uHi]).getD 0 mpDefault)) ∧
      msgAllMarked ((prepareCachedMessages [] [uHi]).getD 0 mpDefault) = true ∧
      isBlockForm ((prepareCachedMessages [] [uHi]).getD 0 mpDefault) = true :=
  ⟨((prepareCachedMessages_marker_placement [] [uHi] (by decide) (by decide)).2.2 0
      (by decide)).2.2.1,
    ((prepareCachedMessages_marker_placement [] [uHi] (by decide) (by decide)).2.2 0
      (by decide)).2.2.2.2.1,
    ((prepareCachedMessages_marker_placement [] [uHi] (by decide) (by decide)).2.2 0
      (by decide)).2.2.2.1⟩

/-- A single call never introduces a cache marker into the handler state. -/
lemma createMessage_state_unmarked (sc : Bool) (mid : Option String)
    (st : List MessageParam) (sys : String) (msgs : List MessageParam)
    (tools : List String) (env : Turn)
    (h0 : ∀ m ∈ st, msgHasMarker m = false)
    (h1 : ∀ m ∈ msgs, msgHasMarker m = false) :
    ∀ m ∈ (createMessage sc mid st sys msgs tools env).2, msgHasMarker m = false := by
  rw [createMessage_snd]
  split
  · unfold updateCachedMessages
    rw [getNewMessages_eq_drop]
    intro m hm
    rcases List.mem_append.mp hm with h | h
    · exact h0 m h
    · exact h1 m (List.drop_subset st.length msgs h)
  · exact h0

/-- C10: cache markers never persist into the handler recorded state — after
any sequence of turns starting from a marker-free state with marker-free
conversations, the stored `cachedMessages` carry no `cache_control`
attributes. -/
theorem runTurns_state_unmarked (ts : List TurnInput) (st : List MessageParam)
    (h0 : ∀ m ∈ st, msgHasMarker m = false)
    (h1 : ∀ t ∈ ts, ∀ m ∈ t.msgs, msgHasMarker m = false) :
    ∀ m ∈ runTurns st ts, msgHasMarker m = false := by
  induction ts generalizing st with
  | nil => simpa [runTurns] using h0
  | cons t ts ih =>
    intro m hm
    exact ih (createMessage t.sc t.mid st t.sys t.msgs t.tools t.env).2
      (createMessage_state_unmarked t.sc t.mid st t.sys t.msgs t.tools t.env h0
        (h1 t (List.mem_cons_self t ts)))
      (fun t1 ht1 => h1 t1 (List.mem_cons_of_mem t ht1)) m hm

theorem runTurns_state_unmarked_witness :
    msgHasMarker
        ((runTurns [] [⟨false, none, "s", [uHi], [], ⟨true, Except.ok "r"⟩⟩]).getD 0 mpDefault) =
      false :=
  runTurns_state_unmarked [⟨false, none, "s", [uHi], [], ⟨true, Except.ok "r"⟩⟩] []
    (by simp)
    (by
      intro t ht m hm
      rw [List.mem_singleton] at ht
      subst ht
      rw [List.mem_singleton] at hm
      subst hm
      rfl)
    _ (by decide)

/-- C5: the cache state advances exactly when the provider call succeeds —
cancellation of the confirmation dialog and transport errors propagate to the
caller and leave the cache state unchanged. -/
theorem createMessage_commit_iff_success (sc : Bool) (mid : Option String)
    (st : List MessageParam) (sys : String) (msgs : List MessageParam)
    (tools : List String) (env : Turn) :
    ((∃ m, (createMessage sc mid st sys msgs tools env).1 = Except.ok m) →
      (createMessage sc mid st sys msgs tools env).2 =
        updateCachedMessages st (getNewMessages st msgs)) ∧
    (∀ err, (createMessage sc mid st sys msgs tools env).1 = Except.error err →
      (createMessage sc mid st sys msgs tools env).2 = st) ∧
    (sc = true → env.confirmed = false →
      (createMessage sc mid st sys msgs tools env).1 = Except.error CreateError.cancelled ∧
      (createMessage sc mid st sys msgs tools env).2 = st) ∧
    (∀ e, (sc = false ∨ env.confirmed = true) → env.apiResult = Except.error e →
      (createMessage sc mid st sys msgs tools env).1 =
          Except.error (CreateError.apiError e) ∧
      (createMessage sc mid st sys msgs tools env).2 = st) ∧
    (∀ m, (sc = false ∨ env.confirmed = true) → env.apiResult = Except.ok m →
      (createMessage sc mid st sys msgs tools env).1 = Except.ok m ∧
      (createMessage sc mid st sys msgs tools env).2 =
        updateCachedMessages st (getNewMessages st msgs)) := by
  unfold createMessage
  by_cases hcond : sc = true ∧ env.confirmed = false
  · rw [if_pos hcond]
    refine ⟨?_, fun err _ => rfl, fun _ _ => ⟨rfl, rfl⟩, ?_, ?_⟩
    · rintro ⟨m, hm⟩
      exact absurd hm (by simp)
    · intro e hor _
      rcases hor with h | h
      · exact absurd hcond.1 (by simp [h])
      · exact absurd hcond.2 (by simp [h])
    · intro m hor _
      rcases hor with h | h
      · exact absurd hcond.1 (by simp [h])
      · exact absurd hcond.2 (by simp [h])
  · rw [if_neg hcond]
    cases henv : env.apiResult with
    | error e =>
      refine ⟨?_, fun err _ => rfl, ?_, fun e1 _ he1 => ?_, fun m _ hm => ?_⟩
      · rintro ⟨m, hm⟩
        exact absurd hm (by simp)
      · intro h1 h2
        exact absurd ⟨h1, h2⟩ hcond
      · cases he1
        exact ⟨rfl, rfl⟩
      · cases hm
    | ok m0 =>
      refine ⟨fun _ => rfl, fun err herr => ?_, ?_, fun e1 _ he1 => ?_, fun m _ hm => ?_⟩
      · exact absurd herr (by simp)
      · intro h1 h2
        exact absurd ⟨h1, h2⟩ hcond
      · cases he1
      · cases hm
        exact ⟨rfl, rfl⟩

theorem createMessage_commit_iff_success_witness :
    (createMessage true none [uHi] "s" [uHi, aHello] [] ⟨false, Except.ok "r"⟩).1 =
        Except.error CreateError.cancelled ∧
      (createMessage true none [uHi] "s" [uHi, aHello] [] ⟨false, Except.ok "r"⟩).2 = [uHi] :=
  (createMessage_commit_iff_success true none [uHi] "s" [uHi, aHello] []
    ⟨false, Except.ok "r"⟩).2.2.1 rfl rfl

/-- C9: request construction is deterministic and does not advance the cache
state it reads — after a failed (uncommitted) turn, rebuilding the request
with identical inputs yields the identical payload. -/
theorem buildRequest_retry_identical (sc : Bool) (mid : Option String)
    (st : List MessageParam) (sys : String) (msgs : List MessageParam)
    (tools : List String) (env : Turn) (err : CreateError)
    (h : (createMessage sc mid st sys msgs tools env).1 = Except.error err) :
    buildRequest (createMessage sc mid st sys msgs tools env).2 sys msgs tools mid =
      buildRequest st sys msgs tools mid := by
  have hst : (createMessage sc mid st sys msgs tools env).2 = st := by
    rw [createMessage_snd, h]
    rfl
  rw [hst]

theorem buildRequest_retry_identical_witness :
    buildRequest
        (createMessage true none [uHi] "s" [uHi, aHello] [] ⟨false, Except.ok "r"⟩).2
        "s" [uHi, aHello] [] none =
      buildRequest [uHi] "s" [uHi, aHello] [] none :=
  buildRequest_retry_identical true none [uHi] "s" [uHi, aHello] []
    ⟨false, Except.ok "r"⟩ CreateError.cancelled rfl

theorem plain_shape_messages_witness :
    (buildRequest [uHi] "sys" [uHi, uNext] [] (some "claude-3-sonnet-20240229")).cachingPath =
        false ∧
      (buildRequest [uHi] "sys" [uHi, uNext] [] (some "claude-3-sonnet-20240229")).payload.system =
        [⟨"sys", "text", none⟩] ∧
      (buildRequest [uHi] "sys" [uHi, uNext] []
          (some "claude-3-sonnet-20240229")).payload.messages =
        prepareCachedMessages [uHi] (getNewMessages [uHi] [uHi, uNext]) ∧
      (buildRequest [uHi] "sys" [uHi, uNext] [] (some "claude-3-sonnet-20240229")).betaHeader =
        none :=
  plain_shape_messages [uHi] "sys" [uHi, uNext] [] (some "claude-3-sonnet-20240229") (by decide)

end ClaudeDev
